import Mathlib

/-!
Verification of the WorkStudyPro automatic cycle-detection engine
(`components/VideoAnalyzer` plus `types.ts` and `utils/geometry.ts`).

JavaScript numbers are embedded as exact rationals (`ℚ`); `Math.floor` is
`Int.floor`.  External platform capabilities (OpenCV's `GaussianBlur` and
`matchTemplate`/`minMaxLoc`, MediaPipe pose estimation, `Math.hypot`,
`Date.now`) are modelled as explicit parameters or per-frame inputs, exactly
as the spec treats them (external collaborators supplying data on demand).
-/

namespace WorkStudyPro

/-- Source `interface Rect` (`types.ts`): `{x, y, width, height}` in source-video
pixel coordinates. -/
structure Rect where
  x : ℚ
  y : ℚ
  width : ℚ
  height : ℚ
deriving DecidableEq

/-- Source `interface Point` (`types.ts`). -/
structure Point where
  x : ℚ
  y : ℚ
deriving DecidableEq

/-- Source `CV_CONFIG.BLUR_SIZE` (kernel size of the Gaussian blur, external call). -/
def BLUR_SIZE : ℕ := 5

/-- Source `CV_CONFIG.DIFF_THRESHOLD`: intensity cutoff of the binary threshold. -/
def DIFF_THRESHOLD : ℤ := 25

/-- Source `CV_CONFIG.EMA_ALPHA`: exponential-moving-average smoothing factor. -/
def EMA_ALPHA : ℚ := 0.2

/-- Source `CV_CONFIG.MIN_CYCLE_TIME`: minimum accepted cycle duration in seconds. -/
def MIN_CYCLE_TIME : ℚ := 1.0

/-- Source `const highThreshold = Math.max(0.01, 0.35 - (sensitivity * 0.02))`. -/
def highThreshold (sensitivity : ℚ) : ℚ :=
  max 0.01 (0.35 - sensitivity * 0.02)

/-- Source `const lowThreshold = highThreshold * 0.6`. -/
def lowThreshold (sensitivity : ℚ) : ℚ :=
  highThreshold sensitivity * 0.6

/-- Source `type LogicState = 'IDLE' | 'TRIGGERED' | 'COOLDOWN'`. -/
inductive LogicState
  | IDLE
  | TRIGGERED
  | COOLDOWN
deriving DecidableEq

/-- The `status` field of `Cycle` (`types.ts`): `'ok' | 'over' | 'abnormal'`. -/
inductive CycleStatus
  | ok
  | over
  | abnormal
deriving DecidableEq

/-- Source `type AIActionType = 'IDLE' | 'OPERATION' | 'TRANSPORT' | 'SETUP'` (`types.ts`). -/
inductive AIActionType
  | IDLE
  | OPERATION
  | TRANSPORT
  | SETUP
deriving DecidableEq

/-- The `aiLabel` field of `Cycle` (`types.ts`):
`'Operation' | 'Transport' | 'Idle' | 'Unknown'`. -/
inductive AiLabel
  | Operation
  | Transport
  | Idle
  | Unknown
deriving DecidableEq

/-- Source `interface Cycle` (`types.ts`).  `id` is `Date.now()` at emission, a
platform clock value supplied as an input. -/
structure Cycle where
  id : ℕ
  startTime : ℚ
  endTime : ℚ
  duration : ℚ
  status : CycleStatus
  aiLabel : AiLabel
deriving DecidableEq

/-- The mutable refs driving `processLogic`: `logicState`, `cycleStartTime`
and `cooldownTimer`. -/
structure LogicCtrl where
  logicState : LogicState
  cycleStartTime : ℚ
  cooldownTimer : ℚ
deriving DecidableEq

/-- Initial controller state: `useRef<LogicState>('IDLE')`,
`cycleStartTime = useRef(0)`, `cooldownTimer = useRef(0)`. -/
def initCtrl : LogicCtrl := ⟨LogicState.IDLE, 0, 0⟩

/-- Source `processLogic(score, timestamp)` of the analyzer component, as a pure
step function on the controller refs.  `currentAction` is
`aiState.current.currentAction` at the time of the call and `nowMs` is
`Date.now()`; the emitted cycle (the `onCycleComplete` callback argument)
is returned alongside the new state.  The `visualState`/`onStatusUpdate`
strings are display-only and not modelled. -/
def processLogic (sensitivity taktTime : ℚ) (currentAction : AIActionType)
    (nowMs : ℕ) (st : LogicCtrl) (score timestamp : ℚ) :
    LogicCtrl × Option Cycle :=
  match st.logicState with
  | LogicState.COOLDOWN =>
      if timestamp > st.cooldownTimer then
        ({ st with logicState := LogicState.IDLE }, none)
      else
        (st, none)
  | LogicState.IDLE =>
      if score > highThreshold sensitivity then
        ({ st with logicState := LogicState.TRIGGERED, cycleStartTime := timestamp },
         none)
      else
        (st, none)
  | LogicState.TRIGGERED =>
      if score < lowThreshold sensitivity then
        let duration := timestamp - st.cycleStartTime
        if duration > MIN_CYCLE_TIME then
          let status : CycleStatus :=
            if duration > taktTime then CycleStatus.over else CycleStatus.ok
          let aiLabel := currentAction
          ({ logicState := LogicState.COOLDOWN,
             cycleStartTime := st.cycleStartTime,
             cooldownTimer := timestamp + 1.5 },
           some { id := nowMs,
                  startTime := st.cycleStartTime,
                  endTime := timestamp,
                  duration := duration,
                  status := status,
                  aiLabel :=
                    if aiLabel = AIActionType.IDLE then AiLabel.Operation
                    else if aiLabel = AIActionType.TRANSPORT then AiLabel.Transport
                    else AiLabel.Operation })
        else
          ({ st with logicState := LogicState.IDLE }, none)
      else
        (st, none)

/-- One processed frame as the controller sees it: the smoothed score and
video timestamp passed to `processLogic`, together with the ambient
`aiState.current.currentAction` and the `Date.now()` value. -/
structure FrameInput where
  score : ℚ
  t : ℚ
  act : AIActionType
  nowMs : ℕ
deriving DecidableEq

/-- Iterating `processLogic` over a sequence of frames, collecting the
emitted cycles in order. -/
def runLogic (sensitivity taktTime : ℚ) :
    LogicCtrl → List FrameInput → LogicCtrl × List Cycle
  | st, [] => (st, [])
  | st, f :: rest =>
      let p := processLogic sensitivity taktTime f.act f.nowMs st f.score f.t
      let r := runLogic sensitivity taktTime p.1 rest
      (r.1, match p.2 with | some c => c :: r.2 | none => r.2)

/-- All frame timestamps are at least `tmin` and non-decreasing. -/
def monoB : ℚ → List FrameInput → Bool
  | _, [] => true
  | tmin, f :: rest => decide (tmin ≤ f.t) && monoB f.t rest

/-- The frame timestamps are non-decreasing. -/
def timesSortedB : List FrameInput → Bool
  | [] => true
  | f :: rest => monoB f.t rest

/-- A concrete run used to instantiate the run-level theorems: two full
trigger/release episodes separated by the cooldown (sensitivity 5 gives
`highThreshold = 0.25`, `lowThreshold = 0.15`). -/
def sampleFrames : List FrameInput :=
  [⟨0.5, 0, AIActionType.IDLE, 7⟩, ⟨0.5, 1, AIActionType.IDLE, 7⟩,
   ⟨0, 2, AIActionType.TRANSPORT, 7⟩, ⟨0, 4, AIActionType.IDLE, 7⟩,
   ⟨0.5, 5, AIActionType.OPERATION, 7⟩, ⟨0, 7, AIActionType.OPERATION, 7⟩]

/-- A single-channel image (an OpenCV `Mat`): `cols × rows` integer pixel
intensities read through `px col row`. -/
structure Img where
  cols : ℤ
  rows : ℤ
  px : ℤ → ℤ → ℤ

/-- The per-axis clamping of `extractRoiMat`: `Math.floor`ed position `x0`
and length `w0` clamped to `[0, bound]` exactly as the source's
`if (x < 0) { w += x; x = 0; }` and `if (x + w > cols) w = cols - x;`. -/
def clampAxis (x0 w0 bound : ℤ) : ℤ × ℤ :=
  let x := if x0 < 0 then 0 else x0
  let w := if x0 < 0 then w0 + x0 else w0
  let w2 := if x + w > bound then bound - x else w
  (x, w2)

/-- Source `extractRoiMat(rect, sourceMat)`: clamp the floored rect to the source
bounds, fail (`null`) when the clamped width or height is `≤ 1`, otherwise
return the cloned sub-image. -/
def extractRoiMat (rect : Rect) (sourceMat : Img) : Option Img :=
  let xw := clampAxis ⌊rect.x⌋ ⌊rect.width⌋ sourceMat.cols
  let yh := clampAxis ⌊rect.y⌋ ⌊rect.height⌋ sourceMat.rows
  if xw.2 ≤ 1 ∨ yh.2 ≤ 1 then none
  else some ⟨xw.2, yh.2, fun i j => sourceMat.px (xw.1 + i) (yh.1 + j)⟩

/-- The `cv.absdiff` / `cv.threshold` / `cv.countNonZero` chain of
`calculateChangeScore`: how many pixels of the `w × h` grid differ from the
reference by more than `DIFF_THRESHOLD`. -/
def countNonZeroDiff (blurred ref : Img) (w h : ℤ) : ℕ :=
  ((Finset.range w.toNat ×ˢ Finset.range h.toNat).filter
    (fun p => DIFF_THRESHOLD < |blurred.px (p.1 : ℤ) (p.2 : ℤ) - ref.px (p.1 : ℤ) (p.2 : ℤ)|)).card

/-- Source `calculateChangeScore(currentFrameGray, refMat, rect, offset)`.
`blur` stands for the external `cv.GaussianBlur` call (size-preserving in
OpenCV); the dimension guard is `cv.absdiff`'s size requirement, whose
violation throws and is caught by the surrounding `try` (score 0), as are
the missing-reference and failed-extraction cases. -/
def calculateChangeScore (blur : Img → Img) (currentFrameGray : Img)
    (refMat : Option Img) (rect : Rect) (offset : ℚ × ℚ) : ℚ :=
  match refMat with
  | none => 0
  | some ref =>
      let adjustedRect : Rect :=
        { rect with x := rect.x + offset.1, y := rect.y + offset.2 }
      match extractRoiMat adjustedRect currentFrameGray with
      | none => 0
      | some roi =>
          if roi.cols = ref.cols ∧ roi.rows = ref.rows then
            let nonZero := countNonZeroDiff (blur roi) ref roi.cols roi.rows
            let totalPixels := rect.width * rect.height
            if totalPixels > 0 then (nonZero : ℚ) / totalPixels else 0
          else 0

/-- Result of the external `cv.matchTemplate` + `cv.minMaxLoc` pair on the
frame's search window: best correlation and its location in the window. -/
structure MatchResult where
  maxVal : ℚ
  maxLocX : ℚ
  maxLocY : ℚ
deriving DecidableEq

/-- The tracker refs: `trackingOffset` and `isTrackingLost`. -/
structure TrackState where
  trackingOffset : ℚ × ℚ
  isTrackingLost : Bool
deriving DecidableEq

/-- Source `trackAnchor`: the search window starts at
`max(0, anchor + lastOffset − margin)` (its extent, clamped to the frame,
only feeds the external `cv.matchTemplate` call whose output `res` is);
when the best correlation exceeds 0.6 the offset becomes
`foundPosition − anchorPosition` and the lost flag clears, otherwise the
offset is retained unchanged and the lost flag set. -/
def trackAnchor (anchorRect : Rect) (res : MatchResult) (st : TrackState) :
    TrackState :=
  let margin : ℚ := 50
  let lastX := anchorRect.x + st.trackingOffset.1
  let lastY := anchorRect.y + st.trackingOffset.2
  let searchX := max 0 (lastX - margin)
  let searchY := max 0 (lastY - margin)
  if res.maxVal > 0.6 then
    let foundX := searchX + res.maxLocX
    let foundY := searchY + res.maxLocY
    { trackingOffset := (foundX - anchorRect.x, foundY - anchorRect.y),
      isTrackingLost := false }
  else
    { st with isTrackingLost := true }

/-- The `if (anchorMat.current) trackAnchor(srcMat.current)` line of
`processFrame`: the tracker runs only when an anchor template and rect are
set (`res` carries that frame's match output, `none` when no template). -/
def trackStep (anchorRect : Option Rect) (res : Option MatchResult)
    (tr : TrackState) : TrackState :=
  match anchorRect, res with
  | some ar, some r => trackAnchor ar r tr
  | _, _ => tr

/-- The signal refs: `{raw, smooth, prevSmooth}`. -/
structure SignalState where
  raw : ℚ
  smooth : ℚ
  prevSmooth : ℚ
deriving DecidableEq

/-- The engine state the scoring path of `processFrame` touches. -/
structure EngineState where
  track : TrackState
  startRefMat : Option Img
  signal : SignalState
  logic : LogicCtrl

/-- The per-frame CV block of `processFrame` (lines 855–871): run the
tracker, then — only when tracking is not lost, a start reference exists
and a zone is drawn — score the zone at the current tracking offset,
smooth with `EMA_ALPHA` and feed `processLogic`. -/
def processFrameStep (blur : Img → Img) (sensitivity taktTime : ℚ)
    (act : AIActionType) (nowMs : ℕ)
    (anchorRect : Option Rect) (res : Option MatchResult)
    (zone : Option Rect) (grayFrame : Img) (videoTime : ℚ)
    (st : EngineState) : EngineState × Option Cycle :=
  let tr := trackStep anchorRect res st.track
  match st.startRefMat, zone with
  | some refM, some rect =>
      if tr.isTrackingLost = false then
        let rawScore := calculateChangeScore blur grayFrame (some refM) rect
          tr.trackingOffset
        let smoothScore := EMA_ALPHA * rawScore + (1 - EMA_ALPHA) * st.signal.prevSmooth
        let p := processLogic sensitivity taktTime act nowMs st.logic smoothScore videoTime
        ({ track := tr, startRefMat := st.startRefMat,
           signal := { raw := rawScore, smooth := smoothScore, prevSmooth := smoothScore },
           logic := p.1 }, p.2)
      else ({ st with track := tr }, none)
  | _, _ => ({ st with track := tr }, none)

/-- Modelled from the spec: the per-frame behaviour §4.3 ascribes to the
implementation — "when lost, ChangeScorer continues to operate … the
cycle-detection logic is NOT paused (by design the implementation keeps
using the last known offset)".  Identical to `processFrameStep` except that
the lost flag is ignored by the scoring path. -/
def processFrameStepSpecC4 (blur : Img → Img) (sensitivity taktTime : ℚ)
    (act : AIActionType) (nowMs : ℕ)
    (anchorRect : Option Rect) (res : Option MatchResult)
    (zone : Option Rect) (grayFrame : Img) (videoTime : ℚ)
    (st : EngineState) : EngineState × Option Cycle :=
  let tr := trackStep anchorRect res st.track
  match st.startRefMat, zone with
  | some refM, some rect =>
      let rawScore := calculateChangeScore blur grayFrame (some refM) rect
        tr.trackingOffset
      let smoothScore := EMA_ALPHA * rawScore + (1 - EMA_ALPHA) * st.signal.prevSmooth
      let p := processLogic sensitivity taktTime act nowMs st.logic smoothScore videoTime
      ({ track := tr, startRefMat := st.startRefMat,
         signal := { raw := rawScore, smooth := smoothScore, prevSmooth := smoothScore },
         logic := p.1 }, p.2)
  | _, _ => ({ st with track := tr }, none)

/-- Source `isPointInRect` (`utils/geometry.ts`). -/
def isPointInRect (point : Point) (rect : Rect) : Bool :=
  decide (point.x ≥ rect.x) && decide (point.x ≤ rect.x + rect.width) &&
  decide (point.y ≥ rect.y) && decide (point.y ≤ rect.y + rect.height)

/-- Source `mode` of the analyzer: `'setup' | 'running'`. -/
inductive Mode
  | setup
  | running
deriving DecidableEq

/-- Source `setupSubMode`: `'start_roi' | 'end_roi' | 'anchor' | 'none'`. -/
inductive SetupSubMode
  | start_roi
  | end_roi
  | anchor
  | subNone
deriving DecidableEq

/-- Source `interface TriggerStep` (`types.ts`); the display-only `name` string is
omitted and the string `id` is embedded as a numeral. -/
structure TriggerStep where
  id : ℕ
  rect : Rect
  isActive : Bool
  hitCount : ℕ
deriving DecidableEq

/-- The component state `handleMouseDown` touches: the drag refs, the
captured start-reference thumbnail (`refImages.start`, a data-URL string
embedded as present/absent) and the start reference mat. -/
structure MouseState where
  dragStart : Option Point
  drawingRect : Option Rect
  draggingStepId : Option ℕ
  dragOffset : Point
  refImagesStart : Bool
  startRefMat : Option Img

/-- Source `handleMouseDown` with the click already mapped to video coordinates
(`mapScreenToVideo` is display glue): drawing a new rect when a sub-mode is
armed; in setup mode, clicking inside a zone starts dragging it and clears
the `refImages.start` thumbnail.  No branch touches `startRefMat`. -/
def handleMouseDown (mode : Mode) (setupSubMode : SetupSubMode)
    (triggerSteps : List TriggerStep) (pt : Point) (st : MouseState) :
    MouseState :=
  if setupSubMode ≠ SetupSubMode.subNone then
    { st with dragStart := some pt,
              drawingRect := some ⟨pt.x, pt.y, 0, 0⟩ }
  else if mode = Mode.setup then
    match triggerSteps.find? (fun s => isPointInRect pt s.rect) with
    | some clickedStep =>
        { st with draggingStepId := some clickedStep.id,
                  dragOffset := ⟨pt.x - clickedStep.rect.x, pt.y - clickedStep.rect.y⟩,
                  refImagesStart := false }
    | none => st
  else st

/-- A MediaPipe pose landmark (normalised 2-D coordinates). -/
structure Landmark where
  x : ℚ
  y : ℚ
deriving DecidableEq

/-- The landmarks `onPoseResults` reads: `NOSE`, `LEFT_WRIST`, `RIGHT_WRIST`. -/
structure PoseFrame where
  nose : Landmark
  leftWrist : Landmark
  rightWrist : Landmark
deriving DecidableEq

/-- Source `aiState.current.lastPos`. -/
structure LastPos where
  lx : ℚ
  ly : ℚ
  rx : ℚ
  ry : ℚ
deriving DecidableEq

/-- The `aiState` ref of the motion classifier (the raw `landmarks` array,
display-only, is omitted). -/
structure AiState where
  currentAction : AIActionType
  confidence : ℚ
  leftHandVel : ℚ
  rightHandVel : ℚ
  lastPos : Option LastPos
deriving DecidableEq

/-- Source `onPoseResults(results)` for a frame that has pose landmarks.
`hyp` stands for the platform primitive `Math.hypot` (Euclidean norm of its
two arguments, a float builtin with no exact rational counterpart). -/
def onPoseResults (hyp : ℚ → ℚ → ℚ) (results : PoseFrame) (st : AiState) :
    AiState :=
  let leftWrist := results.leftWrist
  let rightWrist := results.rightWrist
  let lVel : ℚ :=
    match st.lastPos with
    | some lp => hyp (leftWrist.x - lp.lx) (leftWrist.y - lp.ly)
    | none => 0
  let rVel : ℚ :=
    match st.lastPos with
    | some lp => hyp (rightWrist.x - lp.rx) (rightWrist.y - lp.ry)
    | none => 0
  let lastPos : Option LastPos := some ⟨leftWrist.x, leftWrist.y, rightWrist.x, rightWrist.y⟩
  let leftHandVel := st.leftHandVel * 0.7 + lVel * 0.3
  let rightHandVel := st.rightHandVel * 0.7 + rVel * 0.3
  let avgVel := (leftHandVel + rightHandVel) / 2
  let moveThreshold : ℚ := 0.005
  let reachThreshold : ℚ := 0.02
  let nose := results.nose
  let leftDist := hyp (leftWrist.x - nose.x) (leftWrist.y - nose.y)
  let rightDist := hyp (rightWrist.x - nose.x) (rightWrist.y - nose.y)
  let avgDist := (leftDist + rightDist) / 2
  let action : AIActionType :=
    if avgVel < moveThreshold then AIActionType.IDLE
    else if avgDist > 0.4 ∧ avgVel > reachThreshold then AIActionType.TRANSPORT
    else AIActionType.OPERATION
  { currentAction := action,
    confidence := min 1.0 (avgVel * 50),
    leftHandVel := leftHandVel,
    rightHandVel := rightHandVel,
    lastPos := lastPos }

/-- A 4 × 4 all-white frame (concrete test input). -/
def whiteFrame : Img := ⟨4, 4, fun _ _ => 255⟩

/-- A 2 × 2 all-black captured reference (concrete test input). -/
def zeroRef : Img := ⟨2, 2, fun _ _ => 0⟩

/-- A concrete 2 × 2 zone at the origin. -/
def zoneRect : Rect := ⟨0, 0, 2, 2⟩

/-- A concrete anchor rect. -/
def anchorRect0 : Rect := ⟨0, 0, 1, 1⟩

/-- A template-match result below the 0.6 confidence threshold. -/
def lostMatch : MatchResult := ⟨0.5, 0, 0⟩

/-- Engine state with a captured reference, a fully smoothed-in signal and
the controller idle — about to process a frame on which tracking is lost. -/
def engine0 : EngineState :=
  ⟨⟨(0, 0), false⟩, some zeroRef, ⟨1, 1, 1⟩, initCtrl⟩

/-- Mouse state holding a captured reference (thumbnail and mat). -/
def mouse0 : MouseState :=
  ⟨none, none, none, ⟨0, 0⟩, true, some zeroRef⟩

/-- The ROI `extractRoiMat` clips out of `whiteFrame` for `zoneRect`. -/
def roiWhite : Img := ⟨2, 2, fun i j => whiteFrame.px (0 + i) (0 + j)⟩

/-- Concrete previous wrist positions for the classifier. -/
def lastPos0 : LastPos := ⟨0, 0, 0, 0⟩

/-- Concrete pose landmarks for the classifier. -/
def poseFrame0 : PoseFrame := ⟨⟨0, 0⟩, ⟨0.3, 0⟩, ⟨0.4, 0⟩⟩

/-- Concrete classifier state with a recorded previous position. -/
def poseState0 : AiState := ⟨AIActionType.IDLE, 0, 0, 0, some lastPos0⟩

/-- Induction invariant for the cycle-ordering proof: `tmin` is a lower bound
on every future frame timestamp and `b` is the end time of the last emitted
cycle, when one exists. -/
def Inv (st : LogicCtrl) (tmin : ℚ) : Option ℚ → Prop
  | none => True
  | some e =>
    match st.logicState with
    | LogicState.IDLE => e + 1.5 < tmin
    | LogicState.TRIGGERED => e + 1.5 < st.cycleStartTime ∧ st.cycleStartTime ≤ tmin
    | LogicState.COOLDOWN => e + 1.5 ≤ st.cooldownTimer

/-- Shape of an emitted cycle list: each cycle starts more than the 1.5 s
cooldown after the previous cycle's end time (`b` for the first one, when
given) and spans more than `MIN_CYCLE_TIME`. -/
def GoodList : Option ℚ → List Cycle → Prop
  | _, [] => True
  | b, c :: rest =>
      (∀ e, b = some e → e + 1.5 < c.startTime) ∧
      c.startTime + MIN_CYCLE_TIME < c.endTime ∧
      GoodList (some c.endTime) rest

/-- Everything the `TRIGGERED → COOLDOWN` branch of `processLogic` puts into
an emitted cycle, read off from the only branch that returns `some`. -/
lemma processLogic_emit (sensitivity taktTime : ℚ) (act : AIActionType) (nowMs : ℕ)
    (st : LogicCtrl) (s t : ℚ) (c : Cycle)
    (h : (processLogic sensitivity taktTime act nowMs st s t).2 = some c) :
    st.logicState = LogicState.TRIGGERED ∧
    s < lowThreshold sensitivity ∧
    c.id = nowMs ∧
    c.startTime = st.cycleStartTime ∧ c.endTime = t ∧
    c.duration = t - st.cycleStartTime ∧ MIN_CYCLE_TIME < c.duration ∧
    c.status = (if c.duration > taktTime then CycleStatus.over else CycleStatus.ok) ∧
    c.aiLabel = (if act = AIActionType.IDLE then AiLabel.Operation
                 else if act = AIActionType.TRANSPORT then AiLabel.Transport
                 else AiLabel.Operation) ∧
    (processLogic sensitivity taktTime act nowMs st s t).1
      = { logicState := LogicState.COOLDOWN, cycleStartTime := st.cycleStartTime,
          cooldownTimer := t + 1.5 } := by
  rcases st with ⟨ls, cs, cd⟩
  cases ls with
  | IDLE =>
      simp only [processLogic] at h
      split_ifs at h
  | COOLDOWN =>
      simp only [processLogic] at h
      split_ifs at h
  | TRIGGERED =>
      simp only [processLogic] at h
      by_cases hlow : s < lowThreshold sensitivity
      · rw [if_pos hlow] at h
        by_cases hdur : t - cs > MIN_CYCLE_TIME
        · rw [if_pos hdur] at h
          simp only [Option.some.injEq] at h
          subst h
          refine ⟨rfl, hlow, rfl, rfl, rfl, rfl, hdur, rfl, rfl, ?_⟩
          simp only [processLogic]
          rw [if_pos hlow, if_pos hdur]
        · rw [if_neg hdur] at h; simp at h
      · rw [if_neg hlow] at h; simp at h

/-- Any cycle in the output of `runLogic` was emitted by some `processLogic`
step. -/
lemma runLogic_emitted (sensitivity taktTime : ℚ) :
    ∀ (frames : List FrameInput) (st : LogicCtrl) (c : Cycle),
      c ∈ (runLogic sensitivity taktTime st frames).2 →
      ∃ (f : FrameInput) (st1 : LogicCtrl),
        (processLogic sensitivity taktTime f.act f.nowMs st1 f.score f.t).2 = some c := by
  intro frames
  induction frames with
  | nil => intro st c hc; simp [runLogic] at hc
  | cons f rest ih =>
      intro st c hc
      rcases hp : processLogic sensitivity taktTime f.act f.nowMs st f.score f.t
        with ⟨st1, em⟩
      simp only [runLogic, hp] at hc
      cases em with
      | none => exact ih st1 c hc
      | some c0 =>
          simp only [List.mem_cons] at hc
          rcases hc with rfl | hc
          · exact ⟨f, st, by rw [hp]⟩
          · exact ih st1 c hc

/-- Main induction: a run over non-decreasing timestamps from a state
satisfying `Inv` emits a `GoodList`. -/
lemma runLogic_good (sensitivity taktTime : ℚ) :
    ∀ (frames : List FrameInput) (st : LogicCtrl) (tmin : ℚ) (b : Option ℚ),
      monoB tmin frames = true → Inv st tmin b →
      GoodList b (runLogic sensitivity taktTime st frames).2 := by
  intro frames
  induction frames with
  | nil =>
      intro st tmin b _ _
      simp [runLogic, GoodList]
  | cons f rest ih =>
      intro st tmin b hm hinv
      simp only [monoB, Bool.and_eq_true, decide_eq_true_eq] at hm
      obtain ⟨hle, hrest⟩ := hm
      rcases st with ⟨ls, cs, cd⟩
      cases ls with
      | IDLE =>
          by_cases hs : f.score > highThreshold sensitivity
          · have hp : processLogic sensitivity taktTime f.act f.nowMs
                ⟨LogicState.IDLE, cs, cd⟩ f.score f.t
                = (⟨LogicState.TRIGGERED, f.t, cd⟩, none) := by
              simp only [processLogic]; rw [if_pos hs]
            simp only [runLogic, hp]
            refine ih _ f.t b hrest ?_
            cases b with
            | none => trivial
            | some e =>
                simp only [Inv] at hinv ⊢
                exact ⟨lt_of_lt_of_le hinv hle, le_refl _⟩
          · have hp : processLogic sensitivity taktTime f.act f.nowMs
                ⟨LogicState.IDLE, cs, cd⟩ f.score f.t
                = (⟨LogicState.IDLE, cs, cd⟩, none) := by
              simp only [processLogic]; rw [if_neg hs]
            simp only [runLogic, hp]
            refine ih _ f.t b hrest ?_
            cases b with
            | none => trivial
            | some e =>
                simp only [Inv] at hinv ⊢
                exact lt_of_lt_of_le hinv hle
      | TRIGGERED =>
          by_cases hlow : f.score < lowThreshold sensitivity
          · by_cases hdur : f.t - cs > MIN_CYCLE_TIME
            · have hp : processLogic sensitivity taktTime f.act f.nowMs
                  ⟨LogicState.TRIGGERED, cs, cd⟩ f.score f.t
                  = (⟨LogicState.COOLDOWN, cs, f.t + 1.5⟩,
                     some { id := f.nowMs, startTime := cs, endTime := f.t,
                            duration := f.t - cs,
                            status := if f.t - cs > taktTime then CycleStatus.over
                                      else CycleStatus.ok,
                            aiLabel := if f.act = AIActionType.IDLE then AiLabel.Operation
                                       else if f.act = AIActionType.TRANSPORT then
                                         AiLabel.Transport
                                       else AiLabel.Operation }) := by
                simp only [processLogic]; rw [if_pos hlow, if_pos hdur]
              simp only [runLogic, hp]
              refine ⟨?_, ?_, ?_⟩
              · intro e he
                subst he
                simp only [Inv] at hinv
                exact hinv.1
              · show cs + MIN_CYCLE_TIME < f.t
                linarith
              · exact ih _ f.t (some f.t) hrest (by simp only [Inv]; linarith)
            · have hp : processLogic sensitivity taktTime f.act f.nowMs
                  ⟨LogicState.TRIGGERED, cs, cd⟩ f.score f.t
                  = (⟨LogicState.IDLE, cs, cd⟩, none) := by
                simp only [processLogic]; rw [if_pos hlow, if_neg hdur]
              simp only [runLogic, hp]
              refine ih _ f.t b hrest ?_
              cases b with
              | none => trivial
              | some e =>
                  simp only [Inv] at hinv ⊢
                  obtain ⟨h1, h2⟩ := hinv
                  linarith
          · have hp : processLogic sensitivity taktTime f.act f.nowMs
                ⟨LogicState.TRIGGERED, cs, cd⟩ f.score f.t
                = (⟨LogicState.TRIGGERED, cs, cd⟩, none) := by
              simp only [processLogic]; rw [if_neg hlow]
            simp only [runLogic, hp]
            refine ih _ f.t b hrest ?_
            cases b with
            | none => trivial
            | some e =>
                simp only [Inv] at hinv ⊢
                exact ⟨hinv.1, le_trans hinv.2 hle⟩
      | COOLDOWN =>
          by_cases hcd : f.t > cd
          · have hp : processLogic sensitivity taktTime f.act f.nowMs
                ⟨LogicState.COOLDOWN, cs, cd⟩ f.score f.t
                = (⟨LogicState.IDLE, cs, cd⟩, none) := by
              simp only [processLogic]; rw [if_pos hcd]
            simp only [runLogic, hp]
            refine ih _ f.t b hrest ?_
            cases b with
            | none => trivial
            | some e =>
                simp only [Inv] at hinv ⊢
                exact lt_of_le_of_lt hinv hcd
          · have hp : processLogic sensitivity taktTime f.act f.nowMs
                ⟨LogicState.COOLDOWN, cs, cd⟩ f.score f.t
                = (⟨LogicState.COOLDOWN, cs, cd⟩, none) := by
              simp only [processLogic]; rw [if_neg hcd]
            simp only [runLogic, hp]
            refine ih _ f.t b hrest ?_
            cases b with
            | none => trivial
            | some e =>
                simp only [Inv] at hinv ⊢
                exact hinv

/-- Reading the pairwise ordering facts off a `GoodList`. -/
lemma goodList_get :
    ∀ (cycles : List Cycle) (b : Option ℚ), GoodList b cycles →
      ∀ i (h : i + 1 < cycles.length),
        (cycles.get ⟨i, Nat.lt_of_succ_lt h⟩).startTime
            < (cycles.get ⟨i + 1, h⟩).startTime ∧
        (cycles.get ⟨i, Nat.lt_of_succ_lt h⟩).endTime + 1.5
            < (cycles.get ⟨i + 1, h⟩).startTime := by
  intro cycles
  induction cycles with
  | nil => intro b _ i h; simp at h
  | cons c rest ih =>
      intro b hg i h
      obtain ⟨hhead, hdur, htail⟩ := hg
      cases i with
      | zero =>
          cases rest with
          | nil => simp at h
          | cons c1 rest1 =>
              obtain ⟨hhead1, hdur1, htail1⟩ := htail
              have h15 : c.endTime + 1.5 < c1.startTime := hhead1 c.endTime rfl
              have hmin : (0:ℚ) < MIN_CYCLE_TIME := by norm_num [MIN_CYCLE_TIME]
              constructor
              · show c.startTime < c1.startTime
                linarith
              · show c.endTime + 1.5 < c1.startTime
                exact h15
      | succ j =>
          have hj : j + 1 < rest.length := Nat.succ_lt_succ_iff.mp h
          exact ih (some c.endTime) htail j hj

/-- C1 counterexample: the claim allows no state change outside its three
listed transitions, but in state `TRIGGERED` a frame with score `0` below
`lowThreshold 5` and elapsed time `1/2 − 0 ≤ MIN_CYCLE_TIME` (none of the
three listed cases) moves the controller to `IDLE`. -/
theorem C1_counterexample :
    (0:ℚ) < lowThreshold 5 ∧
    (1/2 : ℚ) - 0 ≤ MIN_CYCLE_TIME ∧
    (processLogic 5 30 AIActionType.OPERATION 0
        ⟨LogicState.TRIGGERED, 0, 0⟩ 0 (1/2)).1.logicState ≠ LogicState.TRIGGERED ∧
    (processLogic 5 30 AIActionType.OPERATION 0
        ⟨LogicState.TRIGGERED, 0, 0⟩ 0 (1/2)).2 = none := by
  have hlow : (0:ℚ) < lowThreshold 5 := by
    norm_num [lowThreshold, highThreshold]
  have hp : processLogic 5 30 AIActionType.OPERATION 0
      ⟨LogicState.TRIGGERED, 0, 0⟩ 0 (1/2)
      = (⟨LogicState.IDLE, 0, 0⟩, none) := by
    simp only [processLogic]
    rw [if_pos hlow, if_neg (by norm_num [MIN_CYCLE_TIME])]
  refine ⟨hlow, by norm_num [MIN_CYCLE_TIME], ?_, ?_⟩
  · rw [hp]
    simp
  · rw [hp]

/-- C1 (amended): the controller is the 3-state machine of the spec with one
additional transition the claim omitted — in state `TRIGGERED`, a frame with
`s < lowThreshold` whose elapsed time is at most `MIN_CYCLE_TIME` moves the
controller back to `IDLE` without emitting (false trigger).  All seven cases
of `processLogic` are characterised, so no other frame changes the state or
emits a cycle. -/
theorem C1_state_machine (sensitivity taktTime : ℚ) (act : AIActionType)
    (nowMs : ℕ) (st : LogicCtrl) (s t : ℚ) :
    (st.logicState = LogicState.IDLE → s > highThreshold sensitivity →
        processLogic sensitivity taktTime act nowMs st s t
          = ({ st with logicState := LogicState.TRIGGERED, cycleStartTime := t },
             none)) ∧
    (st.logicState = LogicState.IDLE → ¬ s > highThreshold sensitivity →
        processLogic sensitivity taktTime act nowMs st s t = (st, none)) ∧
    (st.logicState = LogicState.TRIGGERED → s < lowThreshold sensitivity →
        t - st.cycleStartTime > MIN_CYCLE_TIME →
        processLogic sensitivity taktTime act nowMs st s t
          = ({ logicState := LogicState.COOLDOWN,
               cycleStartTime := st.cycleStartTime,
               cooldownTimer := t + 1.5 },
             some { id := nowMs, startTime := st.cycleStartTime, endTime := t,
                    duration := t - st.cycleStartTime,
                    status := if t - st.cycleStartTime > taktTime then CycleStatus.over
                              else CycleStatus.ok,
                    aiLabel := if act = AIActionType.IDLE then AiLabel.Operation
                               else if act = AIActionType.TRANSPORT then
                                 AiLabel.Transport
                               else AiLabel.Operation })) ∧
    (st.logicState = LogicState.TRIGGERED → s < lowThreshold sensitivity →
        ¬ t - st.cycleStartTime > MIN_CYCLE_TIME →
        processLogic sensitivity taktTime act nowMs st s t
          = ({ st with logicState := LogicState.IDLE }, none)) ∧
    (st.logicState = LogicState.TRIGGERED → ¬ s < lowThreshold sensitivity →
        processLogic sensitivity taktTime act nowMs st s t = (st, none)) ∧
    (st.logicState = LogicState.COOLDOWN → t > st.cooldownTimer →
        processLogic sensitivity taktTime act nowMs st s t
          = ({ st with logicState := LogicState.IDLE }, none)) ∧
    (st.logicState = LogicState.COOLDOWN → ¬ t > st.cooldownTimer →
        processLogic sensitivity taktTime act nowMs st s t = (st, none)) := by
  rcases st with ⟨ls, cs, cd⟩
  cases ls with
  | IDLE =>
      refine ⟨fun _ hs => ?_, fun _ hs => ?_,
              fun h => absurd h (by simp), fun h => absurd h (by simp),
              fun h => absurd h (by simp), fun h => absurd h (by simp),
              fun h => absurd h (by simp)⟩
      · simp only [processLogic]; rw [if_pos hs]
      · simp only [processLogic]; rw [if_neg hs]
  | TRIGGERED =>
      refine ⟨fun h => absurd h (by simp), fun h => absurd h (by simp),
              fun _ hlow hdur => ?_, fun _ hlow hdur => ?_, fun _ hlow => ?_,
              fun h => absurd h (by simp), fun h => absurd h (by simp)⟩
      · simp only [processLogic]; rw [if_pos hlow, if_pos hdur]
      · simp only [processLogic]; rw [if_pos hlow, if_neg hdur]
      · simp only [processLogic]; rw [if_neg hlow]
  | COOLDOWN =>
      refine ⟨fun h => absurd h (by simp), fun h => absurd h (by simp),
              fun h => absurd h (by simp), fun h => absurd h (by simp),
              fun h => absurd h (by simp),
              fun _ hcd => ?_, fun _ hcd => ?_⟩
      · simp only [processLogic]; rw [if_pos hcd]
      · simp only [processLogic]; rw [if_neg hcd]

/-- C2: over any frame sequence no emitted cycle has duration below
`MIN_CYCLE_TIME`, and a `TRIGGERED` episode whose score falls below
`lowThreshold` with elapsed time at most `MIN_CYCLE_TIME` returns the
controller to `IDLE` without emitting. -/
theorem C2_min_cycle_time (sensitivity taktTime : ℚ) (st0 : LogicCtrl)
    (frames : List FrameInput) :
    (∀ c ∈ (runLogic sensitivity taktTime st0 frames).2,
        ¬ c.duration < MIN_CYCLE_TIME) ∧
    (∀ (act : AIActionType) (nowMs : ℕ) (st : LogicCtrl) (s t : ℚ),
        st.logicState = LogicState.TRIGGERED → s < lowThreshold sensitivity →
        t - st.cycleStartTime ≤ MIN_CYCLE_TIME →
        processLogic sensitivity taktTime act nowMs st s t
          = ({ st with logicState := LogicState.IDLE }, none)) := by
  constructor
  · intro c hc
    obtain ⟨f, st1, hemit⟩ := runLogic_emitted sensitivity taktTime frames st0 c hc
    obtain ⟨-, -, -, -, -, -, hmin, -, -, -⟩ :=
      processLogic_emit _ _ _ _ _ _ _ _ hemit
    linarith
  · intro act nowMs st s t hls hlow hdur
    rcases st with ⟨ls, cs, cd⟩
    cases ls with
    | TRIGGERED =>
        simp only [processLogic]
        rw [if_pos hlow, if_neg (not_lt.mpr hdur)]
    | IDLE => simp at hls
    | COOLDOWN => simp at hls

/-- C3: the two thresholds are exactly the spec formulas and always satisfy
`0 < lowThreshold < highThreshold` (hysteresis). -/
theorem C3_thresholds (sensitivity : ℚ) :
    highThreshold sensitivity = max 0.01 (0.35 - sensitivity * 0.02) ∧
    lowThreshold sensitivity = 0.6 * highThreshold sensitivity ∧
    0 < lowThreshold sensitivity ∧
    lowThreshold sensitivity < highThreshold sensitivity := by
  have hpos : (0.01 : ℚ) ≤ highThreshold sensitivity := le_max_left _ _
  refine ⟨rfl, by rw [lowThreshold]; ring, ?_, ?_⟩
  · rw [lowThreshold]; nlinarith
  · rw [lowThreshold]; nlinarith

/-- C7: over non-decreasing video timestamps, emitted cycles have strictly
increasing start times and each cycle starts more than the 1.5 s cooldown
after the previous cycle's end. -/
theorem C7_monotonic_cycle_ordering (sensitivity taktTime : ℚ)
    (frames : List FrameInput) (hsorted : timesSortedB frames = true) :
    ∀ i (h : i + 1 < ((runLogic sensitivity taktTime initCtrl frames).2).length),
      (((runLogic sensitivity taktTime initCtrl frames).2).get
          ⟨i, Nat.lt_of_succ_lt h⟩).startTime
        < (((runLogic sensitivity taktTime initCtrl frames).2).get ⟨i + 1, h⟩).startTime ∧
      (((runLogic sensitivity taktTime initCtrl frames).2).get
          ⟨i, Nat.lt_of_succ_lt h⟩).endTime + 1.5
        < (((runLogic sensitivity taktTime initCtrl frames).2).get ⟨i + 1, h⟩).startTime := by
  have hg : GoodList none (runLogic sensitivity taktTime initCtrl frames).2 := by
    cases frames with
    | nil => simp [runLogic, GoodList]
    | cons f rest =>
        simp only [timesSortedB] at hsorted
        refine runLogic_good sensitivity taktTime (f :: rest) initCtrl f.t none ?_ trivial
        simp only [monoB, Bool.and_eq_true, decide_eq_true_eq]
        exact ⟨le_refl _, hsorted⟩
  exact goodList_get _ none hg

/-- Closed witness for C7 at the two-cycle sample run. -/
theorem C7_monotonic_cycle_ordering_witness :
    timesSortedB sampleFrames = true ∧
    ∀ i (h : i + 1 < ((runLogic 5 30 initCtrl sampleFrames).2).length),
      (((runLogic 5 30 initCtrl sampleFrames).2).get
          ⟨i, Nat.lt_of_succ_lt h⟩).startTime
        < (((runLogic 5 30 initCtrl sampleFrames).2).get ⟨i + 1, h⟩).startTime ∧
      (((runLogic 5 30 initCtrl sampleFrames).2).get
          ⟨i, Nat.lt_of_succ_lt h⟩).endTime + 1.5
        < (((runLogic 5 30 initCtrl sampleFrames).2).get ⟨i + 1, h⟩).startTime :=
  ⟨by norm_num [sampleFrames, timesSortedB, monoB],
   C7_monotonic_cycle_ordering 5 30 sampleFrames
     (by norm_num [sampleFrames, timesSortedB, monoB])⟩

/-- C10: every emitted cycle has status `ok` or `over` (never `abnormal`),
with `over` exactly when the duration exceeds the takt time, and label
`Operation` or `Transport` (never `Idle` or `Unknown`); a motion
classification of `IDLE` at completion is recorded as `Operation`. -/
theorem C10_status_and_label (sensitivity taktTime : ℚ) (st0 : LogicCtrl)
    (frames : List FrameInput) :
    (∀ c ∈ (runLogic sensitivity taktTime st0 frames).2,
        (c.status = CycleStatus.ok ∨ c.status = CycleStatus.over) ∧
        c.status ≠ CycleStatus.abnormal ∧
        (c.status = CycleStatus.over ↔ c.duration > taktTime) ∧
        (c.aiLabel = AiLabel.Operation ∨ c.aiLabel = AiLabel.Transport) ∧
        c.aiLabel ≠ AiLabel.Idle ∧ c.aiLabel ≠ AiLabel.Unknown) ∧
    (∀ (act : AIActionType) (nowMs : ℕ) (st : LogicCtrl) (s t : ℚ) (c : Cycle),
        (processLogic sensitivity taktTime act nowMs st s t).2 = some c →
        act = AIActionType.IDLE → c.aiLabel = AiLabel.Operation) := by
  constructor
  · intro c hc
    obtain ⟨f, st1, hemit⟩ := runLogic_emitted sensitivity taktTime frames st0 c hc
    obtain ⟨-, -, -, -, -, -, -, hstat, hlab, -⟩ :=
      processLogic_emit _ _ _ _ _ _ _ _ hemit
    refine ⟨?_, ?_, ?_, ?_, ?_, ?_⟩
    · rw [hstat]; split_ifs <;> simp
    · rw [hstat]; split_ifs <;> simp
    · rw [hstat]; split_ifs with h <;> simp [h]
    · rw [hlab]; split_ifs <;> simp
    · rw [hlab]; split_ifs <;> simp
    · rw [hlab]; split_ifs <;> simp
  · intro act nowMs st s t c hemit hact
    obtain ⟨-, -, -, -, -, -, -, -, hlab, -⟩ :=
      processLogic_emit _ _ _ _ _ _ _ _ hemit
    rw [hlab, if_pos hact]

/-- The clamped length never exceeds the floored input length. -/
lemma clampAxis_len_le (x0 w0 bound : ℤ) : (clampAxis x0 w0 bound).2 ≤ w0 := by
  simp only [clampAxis]
  split_ifs <;> omega

/-- A successfully extracted ROI has both dimensions above 1 and at most the
requested rect's (rational) dimensions. -/
lemma extractRoiMat_dims (rect : Rect) (src : Img) (roi : Img)
    (h : extractRoiMat rect src = some roi) :
    1 < roi.cols ∧ 1 < roi.rows ∧
    (roi.cols : ℚ) ≤ rect.width ∧ (roi.rows : ℚ) ≤ rect.height := by
  simp only [extractRoiMat] at h
  split_ifs at h with hdeg
  push_neg at hdeg
  simp only [Option.some.injEq] at h
  subst h
  have hw : (clampAxis ⌊rect.x⌋ ⌊rect.width⌋ src.cols).2 ≤ ⌊rect.width⌋ :=
    clampAxis_len_le _ _ _
  have hh : (clampAxis ⌊rect.y⌋ ⌊rect.height⌋ src.rows).2 ≤ ⌊rect.height⌋ :=
    clampAxis_len_le _ _ _
  refine ⟨hdeg.1, hdeg.2, ?_, ?_⟩
  · calc ((clampAxis ⌊rect.x⌋ ⌊rect.width⌋ src.cols).2 : ℚ)
        ≤ (⌊rect.width⌋ : ℚ) := by exact_mod_cast hw
      _ ≤ rect.width := Int.floor_le _
  · calc ((clampAxis ⌊rect.y⌋ ⌊rect.height⌋ src.rows).2 : ℚ)
        ≤ (⌊rect.height⌋ : ℚ) := by exact_mod_cast hh
      _ ≤ rect.height := Int.floor_le _

/-- The changed-pixel count is bounded by the grid area. -/
lemma countNonZeroDiff_le (blurred ref : Img) (w h : ℤ) :
    countNonZeroDiff blurred ref w h ≤ w.toNat * h.toNat := by
  unfold countNonZeroDiff
  refine le_trans (Finset.card_filter_le _ _) ?_
  rw [Finset.card_product, Finset.card_range, Finset.card_range]

/-- Unfolding equation for `calculateChangeScore` with a present reference. -/
lemma calculateChangeScore_some (blur : Img → Img) (frame : Img) (ref : Img)
    (rect : Rect) (offset : ℚ × ℚ) :
    calculateChangeScore blur frame (some ref) rect offset
      = match extractRoiMat
            { rect with x := rect.x + offset.1, y := rect.y + offset.2 } frame with
        | none => 0
        | some roi =>
            if roi.cols = ref.cols ∧ roi.rows = ref.rows then
              if rect.width * rect.height > 0 then
                (countNonZeroDiff (blur roi) ref roi.cols roi.rows : ℚ)
                  / (rect.width * rect.height)
              else 0
            else 0 := rfl

/-- The change score always lies in `[0, 1]`. -/
lemma calculateChangeScore_bounds (blur : Img → Img) (frame : Img)
    (refMat : Option Img) (rect : Rect) (offset : ℚ × ℚ) :
    0 ≤ calculateChangeScore blur frame refMat rect offset ∧
    calculateChangeScore blur frame refMat rect offset ≤ 1 := by
  cases refMat with
  | none =>
      have h0 : calculateChangeScore blur frame none rect offset = 0 := rfl
      rw [h0]
      norm_num
  | some ref =>
      rw [calculateChangeScore_some]
      split
      · norm_num
      · rename_i roi hroi
        split_ifs with hsz htp
        · obtain ⟨hc1, hr1, hcw, hrh⟩ := extractRoiMat_dims _ _ _ hroi
          have hcount := countNonZeroDiff_le (blur roi) ref roi.cols roi.rows
          have hc0 : (0:ℤ) ≤ roi.cols := by omega
          have hr0 : (0:ℤ) ≤ roi.rows := by omega
          have hcQ : (1:ℚ) < (roi.cols : ℚ) := by exact_mod_cast hc1
          have hrQ : (1:ℚ) < (roi.rows : ℚ) := by exact_mod_cast hr1
          have hcountQ : ((countNonZeroDiff (blur roi) ref roi.cols roi.rows : ℕ) : ℚ)
              ≤ (roi.cols : ℚ) * (roi.rows : ℚ) := by
            calc ((countNonZeroDiff (blur roi) ref roi.cols roi.rows : ℕ) : ℚ)
                ≤ ((roi.cols.toNat * roi.rows.toNat : ℕ) : ℚ) := by exact_mod_cast hcount
              _ = (roi.cols : ℚ) * (roi.rows : ℚ) := by
                  have e1 : ((roi.cols.toNat : ℕ) : ℚ) = (roi.cols : ℚ) := by
                    exact_mod_cast Int.toNat_of_nonneg hc0
                  have e2 : ((roi.rows.toNat : ℕ) : ℚ) = (roi.rows : ℚ) := by
                    exact_mod_cast Int.toNat_of_nonneg hr0
                  push_cast
                  rw [e1, e2]
          have harea : (roi.cols : ℚ) * (roi.rows : ℚ) ≤ rect.width * rect.height :=
            mul_le_mul hcw hrh (by linarith) (by linarith)
          constructor
          · exact div_nonneg (Nat.cast_nonneg _) (le_of_lt htp)
          · rw [div_le_one htp]
            linarith
        · norm_num
        · norm_num

/-- Folding below-threshold match results never changes the offset and, once
at least one frame was processed, leaves the lost flag set. -/
lemma trackAnchor_foldl_frozen (ar : Rect) :
    ∀ (results : List MatchResult) (st : TrackState),
      (∀ r ∈ results, ¬ r.maxVal > 0.6) →
      (results.foldl (fun s r => trackAnchor ar r s) st).trackingOffset
          = st.trackingOffset ∧
      (results ≠ [] →
        (results.foldl (fun s r => trackAnchor ar r s) st).isTrackingLost = true) := by
  intro results
  induction results with
  | nil => intro st _; exact ⟨rfl, fun h => absurd rfl h⟩
  | cons r rs ih =>
      intro st hall
      have hr : ¬ r.maxVal > 0.6 := hall r (List.mem_cons_self _ _)
      have hstep : trackAnchor ar r st = { st with isTrackingLost := true } := by
        simp only [trackAnchor]; rw [if_neg hr]
      have hrs : ∀ x ∈ rs, ¬ x.maxVal > 0.6 := fun x hx => hall x (List.mem_cons_of_mem _ hx)
      constructor
      · rw [List.foldl_cons, hstep]
        exact (ih _ hrs).1
      · intro _
        rw [List.foldl_cons, hstep]
        rcases rs with _ | ⟨r2, rs2⟩
        · rfl
        · exact (ih _ hrs).2 (by simp)

/-- C5: a frame whose best template-match correlation does not exceed 0.6
leaves the tracking offset exactly unchanged and sets the lost flag; a frame
whose correlation exceeds 0.6 sets the offset to
`foundPosition − originalAnchorPosition` and clears the flag; and after any
run of consecutive below-threshold frames the offset equals the last
accepted offset. -/
theorem C5_tracking_last_good_value (ar : Rect) (res : MatchResult)
    (st : TrackState) :
    (¬ res.maxVal > 0.6 →
        (trackAnchor ar res st).trackingOffset = st.trackingOffset ∧
        (trackAnchor ar res st).isTrackingLost = true) ∧
    (res.maxVal > 0.6 →
        (trackAnchor ar res st).trackingOffset
          = (max 0 (ar.x + st.trackingOffset.1 - 50) + res.maxLocX - ar.x,
             max 0 (ar.y + st.trackingOffset.2 - 50) + res.maxLocY - ar.y) ∧
        (trackAnchor ar res st).isTrackingLost = false) ∧
    (∀ (results : List MatchResult),
        (∀ r ∈ results, ¬ r.maxVal > 0.6) →
        (results.foldl (fun s r => trackAnchor ar r s) st).trackingOffset
          = st.trackingOffset ∧
        (results ≠ [] →
          (results.foldl (fun s r => trackAnchor ar r s) st).isTrackingLost = true)) := by
  refine ⟨fun hr => ?_, fun hr => ?_,
          fun results hall => trackAnchor_foldl_frozen ar results st hall⟩
  · have hstep : trackAnchor ar res st = { st with isTrackingLost := true } := by
      simp only [trackAnchor]; rw [if_neg hr]
    rw [hstep]
    exact ⟨rfl, rfl⟩
  · have hstep : trackAnchor ar res st
        = { trackingOffset :=
              (max 0 (ar.x + st.trackingOffset.1 - 50) + res.maxLocX - ar.x,
               max 0 (ar.y + st.trackingOffset.2 - 50) + res.maxLocY - ar.y),
            isTrackingLost := false } := by
      simp only [trackAnchor]; rw [if_pos hr]
    rw [hstep]
    exact ⟨rfl, rfl⟩

/-- C6: the change score always lies in `[0, 1]`; it is 0 whenever the
reference model is missing, the offset-adjusted zone fails to extract
(degenerate or out of bounds after clamping), or the zone area is 0 —
the division is guarded and no case throws. -/
theorem C6_change_score_total (blur : Img → Img) (frame : Img)
    (refMat : Option Img) (rect : Rect) (offset : ℚ × ℚ) :
    0 ≤ calculateChangeScore blur frame refMat rect offset ∧
    calculateChangeScore blur frame refMat rect offset ≤ 1 ∧
    calculateChangeScore blur frame none rect offset = 0 ∧
    (extractRoiMat { rect with x := rect.x + offset.1, y := rect.y + offset.2 } frame
        = none →
      calculateChangeScore blur frame refMat rect offset = 0) ∧
    (rect.width * rect.height = 0 →
      calculateChangeScore blur frame refMat rect offset = 0) := by
  obtain ⟨h0, h1⟩ := calculateChangeScore_bounds blur frame refMat rect offset
  refine ⟨h0, h1, rfl, ?_, ?_⟩
  · intro hext
    cases refMat with
    | none => rfl
    | some ref => rw [calculateChangeScore_some, hext]
  · intro harea
    cases refMat with
    | none => rfl
    | some ref =>
        rw [calculateChangeScore_some]
        split
        · rfl
        · split_ifs with hsz htp
          · rw [harea] at htp
            norm_num at htp
          · rfl
          · rfl

/-- Concrete scoring fact: the all-white frame against the all-black
reference scores 1 on `zoneRect` at offset `(0, 0)`. -/
lemma score_white_on_zero :
    calculateChangeScore (fun m => m) whiteFrame (some zeroRef) zoneRect
      ((0 : ℚ), (0 : ℚ)) = 1 := by
  have hroi : extractRoiMat
      { zoneRect with x := zoneRect.x + ((0 : ℚ), (0 : ℚ)).1,
                      y := zoneRect.y + ((0 : ℚ), (0 : ℚ)).2 } whiteFrame
      = some roiWhite := by
    norm_num [extractRoiMat, clampAxis, whiteFrame, zoneRect, roiWhite]
  have hcount : countNonZeroDiff roiWhite zeroRef 2 2 = 4 := by decide
  rw [calculateChangeScore_some, hroi]
  show (if roiWhite.cols = zeroRef.cols ∧ roiWhite.rows = zeroRef.rows then
          if zoneRect.width * zoneRect.height > 0 then
            (countNonZeroDiff ((fun m => m) roiWhite) zeroRef roiWhite.cols roiWhite.rows : ℚ)
              / (zoneRect.width * zoneRect.height)
          else 0
        else 0) = 1
  rw [if_pos ⟨rfl, rfl⟩,
      if_pos (by norm_num [zoneRect] : zoneRect.width * zoneRect.height > 0)]
  show (countNonZeroDiff roiWhite zeroRef roiWhite.cols roiWhite.rows : ℚ)
      / (zoneRect.width * zoneRect.height) = 1
  rw [show roiWhite.cols = 2 from rfl, show roiWhite.rows = 2 from rfl, hcount]
  norm_num [zoneRect]

/-- The below-threshold match makes the tracker keep the offset and set the
lost flag. -/
lemma trackStep_engine0_lost :
    trackStep (some anchorRect0) (some lostMatch) ⟨(0, 0), false⟩
      = ⟨(0, 0), true⟩ := by
  show trackAnchor anchorRect0 lostMatch ⟨(0, 0), false⟩ = ⟨(0, 0), true⟩
  simp only [trackAnchor]
  rw [if_neg (by norm_num [lostMatch] : ¬ lostMatch.maxVal > 0.6)]

/-- Unfolding equation of `processFrameStep` on a constructor state with a
reference and a zone present. -/
lemma processFrameStep_eq (blur : Img → Img) (sensitivity taktTime : ℚ)
    (act : AIActionType) (nowMs : ℕ) (anchorRect : Option Rect)
    (res : Option MatchResult) (rect : Rect) (grayFrame : Img) (videoTime : ℚ)
    (tr0 : TrackState) (refM : Img) (sig : SignalState) (lg : LogicCtrl) :
    processFrameStep blur sensitivity taktTime act nowMs anchorRect res
        (some rect) grayFrame videoTime ⟨tr0, some refM, sig, lg⟩
      = (if (trackStep anchorRect res tr0).isTrackingLost = false then
           ({ track := trackStep anchorRect res tr0, startRefMat := some refM,
              signal :=
                ⟨calculateChangeScore blur grayFrame (some refM) rect
                    (trackStep anchorRect res tr0).trackingOffset,
                 EMA_ALPHA * calculateChangeScore blur grayFrame (some refM) rect
                     (trackStep anchorRect res tr0).trackingOffset
                   + (1 - EMA_ALPHA) * sig.prevSmooth,
                 EMA_ALPHA * calculateChangeScore blur grayFrame (some refM) rect
                     (trackStep anchorRect res tr0).trackingOffset
                   + (1 - EMA_ALPHA) * sig.prevSmooth⟩,
              logic := (processLogic sensitivity taktTime act nowMs lg
                  (EMA_ALPHA * calculateChangeScore blur grayFrame (some refM) rect
                      (trackStep anchorRect res tr0).trackingOffset
                    + (1 - EMA_ALPHA) * sig.prevSmooth) videoTime).1 },
            (processLogic sensitivity taktTime act nowMs lg
                (EMA_ALPHA * calculateChangeScore blur grayFrame (some refM) rect
                    (trackStep anchorRect res tr0).trackingOffset
                  + (1 - EMA_ALPHA) * sig.prevSmooth) videoTime).2)
         else
           ({ track := trackStep anchorRect res tr0, startRefMat := some refM,
              signal := sig, logic := lg }, none)) := rfl

/-- Unfolding equation of `processFrameStepSpecC4` on the same state shape. -/
lemma processFrameStepSpecC4_eq (blur : Img → Img) (sensitivity taktTime : ℚ)
    (act : AIActionType) (nowMs : ℕ) (anchorRect : Option Rect)
    (res : Option MatchResult) (rect : Rect) (grayFrame : Img) (videoTime : ℚ)
    (tr0 : TrackState) (refM : Img) (sig : SignalState) (lg : LogicCtrl) :
    processFrameStepSpecC4 blur sensitivity taktTime act nowMs anchorRect res
        (some rect) grayFrame videoTime ⟨tr0, some refM, sig, lg⟩
      = ({ track := trackStep anchorRect res tr0, startRefMat := some refM,
           signal :=
             ⟨calculateChangeScore blur grayFrame (some refM) rect
                 (trackStep anchorRect res tr0).trackingOffset,
              EMA_ALPHA * calculateChangeScore blur grayFrame (some refM) rect
                  (trackStep anchorRect res tr0).trackingOffset
                + (1 - EMA_ALPHA) * sig.prevSmooth,
              EMA_ALPHA * calculateChangeScore blur grayFrame (some refM) rect
                  (trackStep anchorRect res tr0).trackingOffset
                + (1 - EMA_ALPHA) * sig.prevSmooth⟩,
           logic := (processLogic sensitivity taktTime act nowMs lg
               (EMA_ALPHA * calculateChangeScore blur grayFrame (some refM) rect
                   (trackStep anchorRect res tr0).trackingOffset
                 + (1 - EMA_ALPHA) * sig.prevSmooth) videoTime).1 },
         (processLogic sensitivity taktTime act nowMs lg
             (EMA_ALPHA * calculateChangeScore blur grayFrame (some refM) rect
                 (trackStep anchorRect res tr0).trackingOffset
               + (1 - EMA_ALPHA) * sig.prevSmooth) videoTime).2) := rfl

/-- C4 counterexample: on a frame where the template match is below the
confidence threshold (tracking lost), `processFrameStep` leaves the signal
and the logic controller untouched and emits nothing — the scorer does not
run — whereas the behaviour the spec describes
(`processFrameStepSpecC4`, scoring with the last known offset) would have
smoothed in the score 1 and triggered the controller. -/
theorem C4_counterexample :
    ¬ lostMatch.maxVal > 0.6 ∧
    (processFrameStep (fun m => m) 10 30 AIActionType.OPERATION 0
        (some anchorRect0) (some lostMatch) (some zoneRect) whiteFrame 1
        engine0).1.track.isTrackingLost = true ∧
    (processFrameStep (fun m => m) 10 30 AIActionType.OPERATION 0
        (some anchorRect0) (some lostMatch) (some zoneRect) whiteFrame 1
        engine0).1.signal = engine0.signal ∧
    (processFrameStep (fun m => m) 10 30 AIActionType.OPERATION 0
        (some anchorRect0) (some lostMatch) (some zoneRect) whiteFrame 1
        engine0).1.logic.logicState = LogicState.IDLE ∧
    (processFrameStep (fun m => m) 10 30 AIActionType.OPERATION 0
        (some anchorRect0) (some lostMatch) (some zoneRect) whiteFrame 1
        engine0).2 = none ∧
    (processFrameStepSpecC4 (fun m => m) 10 30 AIActionType.OPERATION 0
        (some anchorRect0) (some lostMatch) (some zoneRect) whiteFrame 1
        engine0).1.logic.logicState = LogicState.TRIGGERED ∧
    (processFrameStepSpecC4 (fun m => m) 10 30 AIActionType.OPERATION 0
        (some anchorRect0) (some lostMatch) (some zoneRect) whiteFrame 1
        engine0).1.signal.smooth = 1 := by
  have hengine : engine0
      = ⟨⟨(0, 0), false⟩, some zeroRef, ⟨1, 1, 1⟩, ⟨LogicState.IDLE, 0, 0⟩⟩ := rfl
  have hraw : calculateChangeScore (fun m => m) whiteFrame (some zeroRef) zoneRect
      ((⟨(0, 0), true⟩ : TrackState).trackingOffset) = 1 := score_white_on_zero
  have hstep : processFrameStep (fun m => m) 10 30 AIActionType.OPERATION 0
      (some anchorRect0) (some lostMatch) (some zoneRect) whiteFrame 1 engine0
      = ({ track := ⟨(0, 0), true⟩, startRefMat := some zeroRef,
           signal := ⟨1, 1, 1⟩, logic := ⟨LogicState.IDLE, 0, 0⟩ }, none) := by
    rw [hengine, processFrameStep_eq, trackStep_engine0_lost]
    rw [if_neg (by simp : ¬ (⟨(0, 0), true⟩ : TrackState).isTrackingLost = false)]
  have hsmooth : EMA_ALPHA * calculateChangeScore (fun m => m) whiteFrame
        (some zeroRef) zoneRect ((⟨(0, 0), true⟩ : TrackState).trackingOffset)
      + (1 - EMA_ALPHA) * (⟨1, 1, 1⟩ : SignalState).prevSmooth = 1 := by
    rw [hraw]
    norm_num [EMA_ALPHA]
  have hlogic : processLogic 10 30 AIActionType.OPERATION 0
      ⟨LogicState.IDLE, 0, 0⟩ 1 1 = (⟨LogicState.TRIGGERED, 1, 0⟩, none) := by
    simp only [processLogic]
    rw [if_pos (by norm_num [highThreshold] : (1 : ℚ) > highThreshold 10)]
  have hspec : processFrameStepSpecC4 (fun m => m) 10 30 AIActionType.OPERATION 0
      (some anchorRect0) (some lostMatch) (some zoneRect) whiteFrame 1 engine0
      = ({ track := ⟨(0, 0), true⟩, startRefMat := some zeroRef,
           signal := ⟨1, 1, 1⟩,
           logic := ⟨LogicState.TRIGGERED, 1, 0⟩ }, none) := by
    rw [hengine, processFrameStepSpecC4_eq, trackStep_engine0_lost, hsmooth, hraw,
        hlogic]
  refine ⟨by norm_num [lostMatch], ?_, ?_, ?_, ?_, ?_, ?_⟩
  · rw [hstep]
  · rw [hstep, hengine]
  · rw [hstep]
  · rw [hstep]
  · rw [hspec]
  · rw [hspec]

/-- C4 (amended): on a frame where anchor tracking ends up lost, the scorer
and the cycle controller are skipped entirely (cycle detection is paused
while lost); on a frame where tracking is not lost the step agrees exactly
with the spec-described behaviour of scoring at the current (last known)
offset and feeding the controller. -/
theorem C4_lost_skips_scoring (blur : Img → Img) (sensitivity taktTime : ℚ)
    (act : AIActionType) (nowMs : ℕ) (anchorRect : Option Rect)
    (res : Option MatchResult) (zone : Option Rect) (grayFrame : Img)
    (videoTime : ℚ) (st : EngineState) :
    ((trackStep anchorRect res st.track).isTrackingLost = true →
        processFrameStep blur sensitivity taktTime act nowMs anchorRect res zone
            grayFrame videoTime st
          = ({ st with track := trackStep anchorRect res st.track }, none)) ∧
    ((trackStep anchorRect res st.track).isTrackingLost = false →
        processFrameStep blur sensitivity taktTime act nowMs anchorRect res zone
            grayFrame videoTime st
          = processFrameStepSpecC4 blur sensitivity taktTime act nowMs anchorRect
              res zone grayFrame videoTime st) := by
  constructor
  · intro hlost
    unfold processFrameStep
    rcases hsr : st.startRefMat with _ | refM <;> rcases hz : zone with _ | rect <;>
      (simp only [hsr, hz]; try rfl)
    rw [if_neg (by simp [hlost])]
  · intro hfound
    unfold processFrameStep processFrameStepSpecC4
    rcases hsr : st.startRefMat with _ | refM <;> rcases hz : zone with _ | rect <;>
      (simp only [hsr, hz]; try rfl)
    rw [if_pos hfound]

/-- C8 counterexample: starting to drag the zone in setup mode clears only
the `refImages.start` thumbnail; the captured reference mat survives the
drag, and the change scorer still scores against it (here scoring 1, not
the claimed model-less 0). -/
theorem C8_counterexample :
    isPointInRect ⟨1, 1⟩ zoneRect = true ∧
    (handleMouseDown Mode.setup SetupSubMode.subNone [⟨0, zoneRect, false, 0⟩]
        ⟨1, 1⟩ mouse0).refImagesStart = false ∧
    (handleMouseDown Mode.setup SetupSubMode.subNone [⟨0, zoneRect, false, 0⟩]
        ⟨1, 1⟩ mouse0).startRefMat = some zeroRef ∧
    (handleMouseDown Mode.setup SetupSubMode.subNone [⟨0, zoneRect, false, 0⟩]
        ⟨1, 1⟩ mouse0).startRefMat ≠ none ∧
    calculateChangeScore (fun m => m) whiteFrame
        (handleMouseDown Mode.setup SetupSubMode.subNone [⟨0, zoneRect, false, 0⟩]
            ⟨1, 1⟩ mouse0).startRefMat zoneRect ((0 : ℚ), (0 : ℚ)) = 1 := by
  have hpt : isPointInRect ⟨1, 1⟩ zoneRect = true := by
    norm_num [isPointInRect, zoneRect]
  have hmd : handleMouseDown Mode.setup SetupSubMode.subNone
      [⟨0, zoneRect, false, 0⟩] ⟨1, 1⟩ mouse0
      = { mouse0 with draggingStepId := some 0,
                      dragOffset := ⟨1 - zoneRect.x, 1 - zoneRect.y⟩,
                      refImagesStart := false } := by
    have hfind : List.find? (fun s : TriggerStep => isPointInRect ⟨1, 1⟩ s.rect)
        [⟨0, zoneRect, false, 0⟩] = some ⟨0, zoneRect, false, 0⟩ := by
      simp [List.find?, hpt]
    unfold handleMouseDown
    rw [if_neg (by simp), if_pos rfl, hfind]
  refine ⟨hpt, ?_, ?_, ?_, ?_⟩
  · rw [hmd]
  · rw [hmd]
    rfl
  · rw [hmd]
    simp [mouse0]
  · rw [hmd]
    exact score_white_on_zero

/-- C8 (amended): starting to drag a zone in setup mode leaves the captured
reference mat (`startRefMat`) untouched in every branch — only the
`refImages.start` thumbnail is cleared (which is what forces a re-capture
before the system can be armed again). -/
theorem C8_drag_keeps_reference_mat (mode : Mode) (subMode : SetupSubMode)
    (steps : List TriggerStep) (pt : Point) (st : MouseState) :
    (handleMouseDown mode subMode steps pt st).startRefMat = st.startRefMat ∧
    (subMode = SetupSubMode.subNone → mode = Mode.setup →
      ∀ s, steps.find? (fun s0 => isPointInRect pt s0.rect) = some s →
        (handleMouseDown mode subMode steps pt st).refImagesStart = false ∧
        (handleMouseDown mode subMode steps pt st).draggingStepId = some s.id) := by
  constructor
  · unfold handleMouseDown
    split_ifs
    · rfl
    · split
      · rfl
      · rfl
    · rfl
  · intro hsm hmode s hfind
    subst hsm
    subst hmode
    unfold handleMouseDown
    rw [if_neg (by simp), if_pos rfl, hfind]
    exact ⟨rfl, rfl⟩

/-- C9: on a pose result with a previous wrist position recorded, the
classifier smooths each hand's velocity as
`v_new = 0.7·v_old + 0.3·v_instant` (`v_instant` the `Math.hypot` of the
wrist displacement), classifies `IDLE` when the average smoothed velocity
is below 0.005, `TRANSPORT` when it exceeds 0.02 and the average
wrist-to-nose distance exceeds 0.4, and `OPERATION` in every other moving
case. -/
theorem C9_motion_classifier (hyp : ℚ → ℚ → ℚ) (results : PoseFrame)
    (st : AiState) (lp : LastPos) (hlp : st.lastPos = some lp) :
    (onPoseResults hyp results st).leftHandVel
        = 0.7 * st.leftHandVel
          + 0.3 * hyp (results.leftWrist.x - lp.lx) (results.leftWrist.y - lp.ly) ∧
    (onPoseResults hyp results st).rightHandVel
        = 0.7 * st.rightHandVel
          + 0.3 * hyp (results.rightWrist.x - lp.rx) (results.rightWrist.y - lp.ry) ∧
    (((onPoseResults hyp results st).leftHandVel
        + (onPoseResults hyp results st).rightHandVel) / 2 < 0.005 →
      (onPoseResults hyp results st).currentAction = AIActionType.IDLE) ∧
    (((onPoseResults hyp results st).leftHandVel
        + (onPoseResults hyp results st).rightHandVel) / 2 > 0.02 →
      (hyp (results.leftWrist.x - results.nose.x) (results.leftWrist.y - results.nose.y)
        + hyp (results.rightWrist.x - results.nose.x)
            (results.rightWrist.y - results.nose.y)) / 2 > 0.4 →
      (onPoseResults hyp results st).currentAction = AIActionType.TRANSPORT) ∧
    (¬ ((onPoseResults hyp results st).leftHandVel
        + (onPoseResults hyp results st).rightHandVel) / 2 < 0.005 →
      ¬ ((hyp (results.leftWrist.x - results.nose.x) (results.leftWrist.y - results.nose.y)
          + hyp (results.rightWrist.x - results.nose.x)
              (results.rightWrist.y - results.nose.y)) / 2 > 0.4 ∧
         ((onPoseResults hyp results st).leftHandVel
          + (onPoseResults hyp results st).rightHandVel) / 2 > 0.02) →
      (onPoseResults hyp results st).currentAction = AIActionType.OPERATION) := by
  have hps : onPoseResults hyp results st
      = { currentAction :=
            if (st.leftHandVel * 0.7
                  + hyp (results.leftWrist.x - lp.lx) (results.leftWrist.y - lp.ly) * 0.3
                + (st.rightHandVel * 0.7
                  + hyp (results.rightWrist.x - lp.rx) (results.rightWrist.y - lp.ry) * 0.3))
                / 2 < 0.005 then AIActionType.IDLE
            else if (hyp (results.leftWrist.x - results.nose.x)
                      (results.leftWrist.y - results.nose.y)
                    + hyp (results.rightWrist.x - results.nose.x)
                        (results.rightWrist.y - results.nose.y)) / 2 > 0.4 ∧
                    (st.leftHandVel * 0.7
                      + hyp (results.leftWrist.x - lp.lx) (results.leftWrist.y - lp.ly) * 0.3
                    + (st.rightHandVel * 0.7
                      + hyp (results.rightWrist.x - lp.rx) (results.rightWrist.y - lp.ry) * 0.3))
                    / 2 > 0.02 then AIActionType.TRANSPORT
            else AIActionType.OPERATION,
          confidence :=
            min 1.0
              ((st.leftHandVel * 0.7
                  + hyp (results.leftWrist.x - lp.lx) (results.leftWrist.y - lp.ly) * 0.3
                + (st.rightHandVel * 0.7
                  + hyp (results.rightWrist.x - lp.rx) (results.rightWrist.y - lp.ry) * 0.3))
                / 2 * 50),
          leftHandVel :=
            st.leftHandVel * 0.7
              + hyp (results.leftWrist.x - lp.lx) (results.leftWrist.y - lp.ly) * 0.3,
          rightHandVel :=
            st.rightHandVel * 0.7
              + hyp (results.rightWrist.x - lp.rx) (results.rightWrist.y - lp.ry) * 0.3,
          lastPos := some ⟨results.leftWrist.x, results.leftWrist.y,
                           results.rightWrist.x, results.rightWrist.y⟩ } := by
    unfold onPoseResults
    rw [hlp]
  simp only [hps]
  refine ⟨by ring, by ring, ?_, ?_, ?_⟩
  · intro h
    rw [if_pos h]
  · intro h1 h2
    rw [if_neg (by linarith), if_pos ⟨h2, h1⟩]
  · intro h1 h2
    rw [if_neg h1, if_neg h2]

/-- Closed witness for C9 at a concrete pose input. -/
theorem C9_motion_classifier_witness :
    poseState0.lastPos = some lastPos0 ∧
    ((onPoseResults (fun a b => a + b) poseFrame0 poseState0).leftHandVel
        = 0.7 * poseState0.leftHandVel
          + 0.3 * (fun a b => a + b) (poseFrame0.leftWrist.x - lastPos0.lx)
              (poseFrame0.leftWrist.y - lastPos0.ly) ∧
     (onPoseResults (fun a b => a + b) poseFrame0 poseState0).rightHandVel
        = 0.7 * poseState0.rightHandVel
          + 0.3 * (fun a b => a + b) (poseFrame0.rightWrist.x - lastPos0.rx)
              (poseFrame0.rightWrist.y - lastPos0.ry) ∧
     (((onPoseResults (fun a b => a + b) poseFrame0 poseState0).leftHandVel
        + (onPoseResults (fun a b => a + b) poseFrame0 poseState0).rightHandVel) / 2
          < 0.005 →
      (onPoseResults (fun a b => a + b) poseFrame0 poseState0).currentAction
        = AIActionType.IDLE) ∧
     (((onPoseResults (fun a b => a + b) poseFrame0 poseState0).leftHandVel
        + (onPoseResults (fun a b => a + b) poseFrame0 poseState0).rightHandVel) / 2
          > 0.02 →
      ((fun a b => a + b) (poseFrame0.leftWrist.x - poseFrame0.nose.x)
          (poseFrame0.leftWrist.y - poseFrame0.nose.y)
        + (fun a b => a + b) (poseFrame0.rightWrist.x - poseFrame0.nose.x)
            (poseFrame0.rightWrist.y - poseFrame0.nose.y)) / 2 > 0.4 →
      (onPoseResults (fun a b => a + b) poseFrame0 poseState0).currentAction
        = AIActionType.TRANSPORT) ∧
     (¬ ((onPoseResults (fun a b => a + b) poseFrame0 poseState0).leftHandVel
        + (onPoseResults (fun a b => a + b) poseFrame0 poseState0).rightHandVel) / 2
          < 0.005 →
      ¬ (((fun a b => a + b) (poseFrame0.leftWrist.x - poseFrame0.nose.x)
            (poseFrame0.leftWrist.y - poseFrame0.nose.y)
          + (fun a b => a + b) (poseFrame0.rightWrist.x - poseFrame0.nose.x)
              (poseFrame0.rightWrist.y - poseFrame0.nose.y)) / 2 > 0.4 ∧
         ((onPoseResults (fun a b => a + b) poseFrame0 poseState0).leftHandVel
          + (onPoseResults (fun a b => a + b) poseFrame0 poseState0).rightHandVel) / 2
            > 0.02) →
      (onPoseResults (fun a b => a + b) poseFrame0 poseState0).currentAction
        = AIActionType.OPERATION)) :=
  ⟨rfl, C9_motion_classifier (fun a b => a + b) poseFrame0 poseState0 lastPos0 rfl⟩

end WorkStudyPro
